import Mathlib

/-!
Verification development for the TehGo metro route-finding engine.

This file gives a shallow embedding in Lean 4 of the algorithmic core of the
repository — `findRoutes` / `findAllPaths` from `src/lib/route-finder.ts` and
`getLineTerminal` / `getFirstStepGuide` / `getTransferGuide` from
`src/lib/route-guides.ts`, over the data model of `src/types/metro.ts` — and
proves or refutes the specified properties of those functions.

Modelling conventions:
- JavaScript `Record<string, T>` maps become association lists
  `List (String × T)` read with `List.lookup` (first binding wins, matching
  record-key uniqueness for well-formed data).
- The JavaScript falsiness idiom `a || b` on strings becomes `jsOr`
  (`""` is the only falsy string that occurs).
- `Set<string>` used only through `has`/copy-insert becomes a `List String`
  used only through membership.
- The numeric `maxRoutes` argument and `Array.prototype.slice` keep their
  JavaScript semantics on integers (a negative end counts from the end of the
  array), with `number` embedded as `Int`.
- `Array.prototype.sort`, which ECMAScript requires to be a stable sort, is
  embedded as Mathlib's stable `List.insertionSort` with the same comparator.
- The recursion of `findAllPaths` is embedded with an explicit fuel argument;
  `findRoutes` supplies `stations.length + 1` fuel, and a theorem below shows
  any fuel above the number of unvisited station entries yields the same
  result (the JavaScript recursion terminates for exactly this reason).
-/

namespace Metro

/-- JavaScript `a || b` for strings: `""` is falsy, everything else truthy. -/
def jsOr (a b : String) : String := if a = "" then b else a

/-- `Station` from `src/types/metro.ts`. The optional facility flags
(`wc`, `atm`, …) are never read by the route engine or the guidance
functions and are omitted from the embedding. -/
structure Station where
  id : String
  name : String
  translationsFa : String
  lines : List String
  longitude : String
  latitude : String
  colors : List String
  disabled : Bool
  relations : List String
deriving DecidableEq

/-- `GraphEdge` from `src/types/metro.ts`. -/
structure GraphEdge where
  «from» : String
  «to» : String
  line : String
  weight : Nat
deriving DecidableEq

/-- `Graph` (adjacency record, station id to outgoing edges). -/
def Graph : Type := List (String × List GraphEdge)

/-- `StationsMap` (station id to station). -/
def StationsMap : Type := List (String × Station)

/-- Localized line name, `Line.name` from `src/types/metro.ts`. -/
structure LineName where
  fa : String
  en : String
deriving DecidableEq

/-- `Line` from `src/types/metro.ts`. -/
structure Line where
  id : String
  name : LineName
  color : String
deriving DecidableEq

/-- `LinesMap` (line id to line). -/
def LinesMap : Type := List (String × Line)

/-- `Path` from `src/types/metro.ts`: one directional traversal of a line. -/
structure Path where
  id : String
  «from» : String
  «to» : String
  stations : List String
deriving DecidableEq

/-- The value type of `PathsMap`: `{ paths: Path[] }`. -/
structure LinePaths where
  paths : List Path
deriving DecidableEq

/-- `PathsMap` (line id to its declared directional paths). -/
def PathsMap : Type := List (String × LinePaths)

/-- `RouteStep` from `src/types/metro.ts`. -/
structure RouteStep where
  stationId : String
  station : Station
  line : String
  isTransfer : Bool
  transferTo : Option String
deriving DecidableEq

/-- `RouteResult` from `src/types/metro.ts`. `totalTransfers` is an `Int`
because the source computes `uniqueLines.length - 1`, which is `-1` for a
route whose steps all carry an empty line id. -/
structure RouteResult where
  steps : List RouteStep
  totalStations : Nat
  totalTransfers : Int
  lines : List String
deriving DecidableEq

/-- `'en' | 'fa'` language selector. -/
inductive Language where
  | en
  | fa
deriving DecidableEq

/-- `graph[x] || []`: the outgoing edges of a station, `[]` when absent. -/
def lookupEdges (g : Graph) (x : String) : List GraphEdge :=
  (List.lookup x g).getD []

/-- The route-materialization loop of `findAllPaths`
(`src/lib/route-finder.ts` lines 29–52): walk the station path, skip
stations absent from the map, and build a `RouteStep` per present station.
`prev` is the previous raw path entry (`path[i-1]`, even when that entry was
skipped) and `prevLine` is the line of the last step actually built. -/
def buildSteps (g : Graph) (st : StationsMap) :
    Option String → String → List String → List RouteStep
  | _, _, [] => []
  | prev, prevLine, stationId :: rest =>
    match List.lookup stationId st with
    | none => buildSteps g st (some stationId) prevLine rest
    | some station =>
      let edge : Option GraphEdge :=
        match prev with
        | some p => (lookupEdges g p).find? (fun e => e.«to» == stationId)
        | none => none
      let line := jsOr (match edge with | some e => e.line | none => "")
        (jsOr (station.lines.headD "") "")
      let isTransfer : Bool := line ≠ prevLine ∧ prevLine ≠ ""
      { stationId := stationId, station := station, line := line,
        isTransfer := isTransfer,
        transferTo := if isTransfer then some line else none }
        :: buildSteps g st (some stationId) line rest

/-- `Array.from(new Set(xs))`: deduplicate keeping first occurrences. -/
def jsDedupGo (seen : List String) : List String → List String
  | [] => []
  | x :: xs => if x ∈ seen then jsDedupGo seen xs else x :: jsDedupGo (x :: seen) xs

/-- Deduplicate a string list keeping first occurrences, as JS `Set` does. -/
def jsDedup (l : List String) : List String := jsDedupGo [] l

/-- The `RouteResult` pushed by `findAllPaths` when the target is reached
(`src/lib/route-finder.ts` lines 24–63). -/
def mkRouteResult (g : Graph) (st : StationsMap) (path : List String) : RouteResult :=
  let steps := buildSteps g st none "" path
  let uniqueLines := jsDedup ((steps.map RouteStep.line).filter (fun l => l ≠ ""))
  { steps := steps, totalStations := path.length,
    totalTransfers := (uniqueLines.length : Int) - 1, lines := uniqueLines }

/-- The recursive DFS `findAllPaths` of `src/lib/route-finder.ts`, with an
explicit fuel argument standing for the call stack. Parameters follow the
source: target, current station, visited set, path so far, distinct lines
so far, line currently ridden, transfer counter. Fuel `0` returns no routes;
`findAllPaths_fuel_irrelevant` below shows any fuel exceeding the number of
not-yet-visited station entries gives the same result, so the fuel is never
actually exhausted by `findRoutes`. -/
def findAllPaths (g : Graph) (st : StationsMap) :
    Nat → String → String → List String → List String → List String → String → Nat →
    List RouteResult
  | 0, _, _, _, _, _, _, _ => []
  | fuel + 1, target, current, visited, path, lines, currentLine, transfers =>
    if current = target then [mkRouteResult g st path]
    else if path.length > 30 ∨ transfers > 4 then []
    else
      let edges := lookupEdges g current
      let sortedEdges := edges.filter (fun e => e.line == currentLine) ++
        edges.filter (fun e => e.line != currentLine)
      sortedEdges.flatMap fun e =>
        if e.«to» ∉ visited ∧ (List.lookup e.«to» st).isSome = true then
          findAllPaths g st fuel target e.«to» (e.«to» :: visited) (path ++ [e.«to»])
            (if e.line = currentLine then lines else lines ++ [e.line]) e.line
            (if currentLine ≠ "" ∧ e.line ≠ currentLine then transfers + 1 else transfers)
        else []

/-- The dedup key of `findRoutes`: `route.steps.map(s => s.stationId).join('-')`. -/
def routeKey (r : RouteResult) : String :=
  String.intercalate "-" (r.steps.map RouteStep.stationId)

/-- The dedup pass of `findRoutes` (lines 106–109): keep a route exactly when
its index equals the first index carrying the same station-id key. -/
def dedupRoutes (l : List RouteResult) : List RouteResult :=
  (l.enum.filter (fun p => l.findIdx (fun r => routeKey r == routeKey p.2) == p.1)).map
    Prod.snd

/-- The sort order of `findRoutes` (lines 112–119): ascending transfers,
then ascending station count. `cmp a b ≤ 0` for the source's numeric
comparator is exactly this relation. -/
def routeOrder (a b : RouteResult) : Prop :=
  a.totalTransfers < b.totalTransfers ∨
    (a.totalTransfers = b.totalTransfers ∧ a.totalStations ≤ b.totalStations)

instance : DecidableRel routeOrder := fun a b => by
  unfold routeOrder; infer_instance

instance : IsTotal RouteResult routeOrder :=
  ⟨by intro a b; unfold routeOrder; omega⟩

instance : IsTrans RouteResult routeOrder :=
  ⟨by intro a b c; unfold routeOrder; omega⟩

/-- JavaScript `arr.slice(0, e)` for an integer `e`: a negative end counts
from the end of the array, clamped at zero. -/
def jsSliceTo {α : Type} (l : List α) (e : Int) : List α :=
  if e < 0 then l.take ((l.length + e).toNat) else l.take e.toNat

/-- `stations[from]?.lines?.[0] || ''`: the line-prioritization seed of
`findRoutes` (line 100). -/
def initialLineOf (st : StationsMap) (x : String) : String :=
  match List.lookup x st with
  | some s => s.lines.headD ""
  | none => ""

/-- `findRoutes` with the DFS fuel exposed (the body of
`src/lib/route-finder.ts` lines 10–123). -/
def findRoutesAux (fuel : Nat) (g : Graph) (st : StationsMap)
    («from» «to» : String) (maxRoutes : Int) : List RouteResult :=
  if «from» = «to» then []
  else
    let initialLine := initialLineOf st «from»
    let allRoutes := findAllPaths g st fuel «to» «from» [«from»] [«from»] [initialLine]
      initialLine 0
    let uniqueRoutes := dedupRoutes allRoutes
    jsSliceTo (uniqueRoutes.insertionSort routeOrder) maxRoutes

/-- `findRoutes(graph, stations, from, to, maxRoutes = 5)` from
`src/lib/route-finder.ts`. `stations.length + 1` fuel is always sufficient
for the DFS (see `findRoutes_fuel_total`). -/
def findRoutes (g : Graph) (st : StationsMap) («from» «to» : String)
    (maxRoutes : Int) : List RouteResult :=
  findRoutesAux (st.length + 1) g st «from» «to» maxRoutes

/-- The path-scanning loop of `getLineTerminal` (`src/lib/route-guides.ts`
lines 10–21): first path carrying both station indices decides the terminal. -/
def getLineTerminalGo (startStationId nextStationId : String) : List Path → String
  | [] => ""
  | p :: rest =>
    match p.stations.findIdx? (fun x => x = startStationId),
      p.stations.findIdx? (fun x => x = nextStationId) with
    | some stationIndex, some nextIndex =>
      if nextIndex > stationIndex then p.«to» else p.«from»
    | _, _ => getLineTerminalGo startStationId nextStationId rest

/-- `getLineTerminal(line, startStationId, nextStationId)` from
`src/lib/route-guides.ts`. The module-level `paths` constant (loaded from a
bundled JSON dataset that is not part of the algorithmic source) is passed
explicitly as the first argument. -/
def getLineTerminal (paths : PathsMap) (line startStationId nextStationId : String) :
    String :=
  match List.lookup line paths with
  | none => ""
  | some linePaths => getLineTerminalGo startStationId nextStationId linePaths.paths

/-- Claim-side restatement of the terminal lookup, written from the spec's
words: iterate the line's declared paths, locate both station indices, and on
the first path containing both return its `to` terminal when travel is
forward along the path's station order and its `from` terminal otherwise
(travel backward); if no path contains both stations, yield the empty
value. -/
def getLineTerminalSpec (paths : PathsMap) (line fromStationId viaStationId : String) :
    String :=
  match List.lookup line paths with
  | none => ""
  | some linePaths =>
    (linePaths.paths.findSome? (fun p =>
      match p.stations.findIdx? (fun x => x = fromStationId),
        p.stations.findIdx? (fun x => x = viaStationId) with
      | some fromIndex, some viaIndex =>
        some (if fromIndex < viaIndex then p.«to» else p.«from»)
      | _, _ => none)).getD ""

/-- `lines[lineId]?.name[lang] || lineId`. -/
def lineDisplayName (lines : LinesMap) (lineId : String) (lang : Language) : String :=
  jsOr (match List.lookup lineId lines with
    | some l => match lang with | .fa => l.name.fa | .en => l.name.en
    | none => "") lineId

/-- The scan of `getFirstStepGuide` for the last station of the route's first
contiguous same-line run (`src/lib/route-guides.ts` lines 39–43). -/
def lastStationOnLineGo (lineId : String) (acc : String) : List RouteStep → String
  | [] => acc
  | step :: rest =>
    if step.line ≠ lineId then acc else lastStationOnLineGo lineId step.stationId rest

/-- `getFirstStepGuide(route, lines, lang, getStationDisplay)` from
`src/lib/route-guides.ts`, with the module-level `paths` dataset passed
explicitly. -/
def getFirstStepGuide (paths : PathsMap) (route : RouteResult) (lines : LinesMap)
    (lang : Language) (getStationDisplay : String → String) : String :=
  match route.steps.head? with
  | none => ""
  | some firstStep =>
    let lineId := firstStep.line
    let lineName := lineDisplayName lines lineId lang
    let lastStationOnLine := lastStationOnLineGo lineId firstStep.stationId route.steps
    let terminal := getLineTerminal paths lineId firstStep.stationId lastStationOnLine
    let stationName := getStationDisplay firstStep.stationId
    let terminalName := getStationDisplay terminal
    match lang with
    | .fa => "از ایستگاه " ++ stationName ++ " سوار " ++ lineName ++ " به سمت " ++
        terminalName ++ " شوید"
    | .en => "Board " ++ lineName ++ " at " ++ stationName ++ " station towards " ++
        terminalName

/-- `getTransferGuide(route, transferIndex, lines, lang, getStationDisplay)`
from `src/lib/route-guides.ts`, with the module-level `paths` dataset passed
explicitly. The source's guard `transferIndex >= route.steps.length - 1` over
JavaScript numbers is `route.steps.length ≤ transferIndex + 1` over `Nat`,
and its falsiness test `!currentStep.transferTo` rejects both an absent and
an empty `transferTo`. -/
def getTransferGuide (paths : PathsMap) (route : RouteResult) (transferIndex : Nat)
    (lines : LinesMap) (lang : Language) (getStationDisplay : String → String) :
    String :=
  if route.steps.length ≤ transferIndex + 1 then ""
  else
    match route.steps[transferIndex]?, route.steps[transferIndex + 1]? with
    | some currentStep, some nextStep =>
      match currentStep.transferTo with
      | none => ""
      | some transferTo =>
        if transferTo = "" then ""
        else
          let toLine := lineDisplayName lines transferTo lang
          let stationName := getStationDisplay currentStep.stationId
          let terminal := getLineTerminal paths transferTo currentStep.stationId
            nextStep.stationId
          let terminalName := getStationDisplay terminal
          match lang with
          | .fa => "در ایستگاه " ++ stationName ++ " پیاده شوید و به سمت " ++ toLine ++
              " " ++ terminalName ++ " بروید"
          | .en => "At " ++ stationName ++ " station, transfer to " ++ toLine ++
              " towards " ++ terminalName
    | _, _ => ""

/-- An edge sequence `es` leads in the graph from station `a` to station `b`:
each edge is drawn from the adjacency list of the station reached so far. -/
def IsEdgePath (g : Graph) : String → List GraphEdge → String → Prop
  | a, [], b => a = b
  | a, e :: es, b => e ∈ lookupEdges g a ∧ IsEdgePath g e.«to» es b

/-- The DFS transfer counter accumulated along a sequence of edge lines,
starting from a given currently-ridden line: a unit is added exactly when the
current line is nonempty and the next edge's line differs
(`src/lib/route-finder.ts` line 80). -/
def countTransfers : String → List String → Nat
  | _, [] => 0
  | currentLine, l :: ls =>
    (if currentLine ≠ "" ∧ l ≠ currentLine then 1 else 0) + countTransfers l ls

/-- Station `d` is reachable from station `o` within the bounds the DFS
actually enforces: an edge sequence of at most 30 edges (31 stations), all of
whose destinations are present in the stations map, whose accumulated
transfer counter (seeded with the origin's first line membership) is at most
5. -/
def ConnectsWithin (g : Graph) (st : StationsMap) (o d : String) : Prop :=
  ∃ es : List GraphEdge, IsEdgePath g o es d ∧
    (∀ e ∈ es, (List.lookup e.«to» st).isSome = true) ∧
    es.length ≤ 30 ∧
    countTransfers (initialLineOf st o) (es.map GraphEdge.line) ≤ 5

/-- No declared path of the given line contains both stations: the
terminal-lookup miss condition. -/
def pathsMissBoth (paths : PathsMap) (line s v : String) : Prop :=
  ∀ lp, List.lookup line paths = some lp →
    ∀ p ∈ lp.paths, s ∉ p.stations ∨ v ∉ p.stations

/-- Number of stations-map entries whose key has not been visited: the
quantity that strictly shrinks at every recursive call of `findAllPaths`. -/
def unseenCount (st : StationsMap) (visited : List String) : Nat :=
  match st with
  | [] => 0
  | kv :: rest => (if kv.1 ∈ visited then 0 else 1) + unseenCount rest visited

/-- How the materialization assigns a line to every step after the first:
the line of the first graph edge from the previous step's station into this
one, with fallback to this station's first line membership, then `""`. -/
def stepLineRel (g : Graph) (a b : RouteStep) : Prop :=
  b.line = jsOr
    (match (lookupEdges g a.stationId).find? (fun e => e.«to» == b.stationId) with
      | some e => e.line
      | none => "")
    (jsOr (b.station.lines.headD "") "")

/-! Concrete sample data used by witnesses and counterexamples. -/

/-- A placeholder route (used only as a `headD` default in closed statements). -/
def emptyRoute : RouteResult := ⟨[], 0, 0, []⟩

/-- A sample station belonging to the given lines. -/
def sampleStation (i : String) (ls : List String) : Station :=
  ⟨i, i, "", ls, "", "", [], false, []⟩

/-- Graph with a single edge `s1 → s2` on line `LB`, while station `s1`'s
first line membership is `LA`. -/
def graphSwitch : Graph := [("s1", [⟨"s1", "s2", "LB", 1⟩])]

/-- Stations for `graphSwitch`: `s1` on lines `[LA, LB]`, `s2` on `[LB]`. -/
def stationsSwitch : StationsMap :=
  [("s1", sampleStation "s1" ["LA", "LB"]), ("s2", sampleStation "s2" ["LB"])]

/-- Stations map missing the origin `s1` (only `s2` is present). -/
def stationsNoOrigin : StationsMap := [("s2", sampleStation "s2" ["LB"])]

/-- Graph with two simple routes from `a` to `b`: direct, and via `c`,
all on line `LB`. -/
def graphTwo : Graph :=
  [("a", [⟨"a", "b", "LB", 1⟩, ⟨"a", "c", "LB", 1⟩]), ("c", [⟨"c", "b", "LB", 1⟩])]

/-- Stations for `graphTwo`. -/
def stationsTwo : StationsMap :=
  [("a", sampleStation "a" ["LB"]), ("b", sampleStation "b" ["LB"]),
    ("c", sampleStation "c" ["LB"])]

/-- A 6-station chain `c0 → c1 → … → c5` whose five edges carry five distinct
lines, while `c0`'s own line membership is yet another line `L0`: every
connecting edge sequence accumulates five transfers. -/
def graphChain : Graph :=
  [("c0", [⟨"c0", "c1", "L1", 1⟩]), ("c1", [⟨"c1", "c2", "L2", 1⟩]),
    ("c2", [⟨"c2", "c3", "L3", 1⟩]), ("c3", [⟨"c3", "c4", "L4", 1⟩]),
    ("c4", [⟨"c4", "c5", "L5", 1⟩])]

/-- Stations for `graphChain`. -/
def stationsChain : StationsMap :=
  [("c0", sampleStation "c0" ["L0"]), ("c1", sampleStation "c1" ["L1"]),
    ("c2", sampleStation "c2" ["L2"]), ("c3", sampleStation "c3" ["L3"]),
    ("c4", sampleStation "c4" ["L4"]), ("c5", sampleStation "c5" ["L5"])]

/-- An unreachable pair: two stations, no edges at all. -/
def stationsIsland : StationsMap :=
  [("x", sampleStation "x" ["L1"]), ("y", sampleStation "y" ["L2"])]

/-- A concrete two-step route on line `L1`, used to exercise the guidance
functions. -/
def routeGuide : RouteResult :=
  ⟨[⟨"s1", sampleStation "s1" ["L1"], "L1", false, none⟩,
    ⟨"s2", sampleStation "s2" ["L1"], "L1", false, none⟩], 2, 0, ["L1"]⟩

/-- A concrete route with a transfer at its first step, used to exercise
`getTransferGuide`. -/
def routeTransfer : RouteResult :=
  ⟨[⟨"s1", sampleStation "s1" ["L1"], "L2", true, some "L2"⟩,
    ⟨"s2", sampleStation "s2" ["L2"], "L2", false, none⟩], 2, 1, ["L1", "L2"]⟩

/-! Basic lemmas about the JavaScript-style helpers. -/

theorem jsOr_left_empty (b : String) : jsOr "" b = b := by
  simp [jsOr]

theorem jsOr_right_empty (a : String) : jsOr a "" = a := by
  unfold jsOr; split <;> simp_all

theorem jsSliceTo_sublist {α : Type} (l : List α) (e : Int) :
    (jsSliceTo l e).Sublist l := by
  unfold jsSliceTo; split <;> exact List.take_sublist _ _

theorem dedupRoutes_subset {l : List RouteResult} {r : RouteResult}
    (h : r ∈ dedupRoutes l) : r ∈ l := by
  unfold dedupRoutes at h
  simp only [List.mem_map, List.mem_filter] at h
  obtain ⟨⟨i, x⟩, ⟨hmem, -⟩, rfl⟩ := h
  obtain ⟨hi, hx⟩ := List.mem_enum hmem
  exact hx ▸ List.getElem_mem hi

/-- Unfolding a membership in `findRoutes` down to a membership in the raw
DFS output. -/
theorem mem_findRoutes {g : Graph} {st : StationsMap} {o d : String} {m : Int}
    {r : RouteResult} (h : r ∈ findRoutes g st o d m) :
    o ≠ d ∧ r ∈ findAllPaths g st (st.length + 1) d o [o] [o] [initialLineOf st o]
      (initialLineOf st o) 0 := by
  by_cases hod : o = d
  · simp [findRoutes, findRoutesAux, hod] at h
  · refine ⟨hod, ?_⟩
    simp only [findRoutes, findRoutesAux, if_neg hod] at h
    have h1 := List.Sublist.mem h (jsSliceTo_sublist _ _)
    have h2 := (List.perm_insertionSort routeOrder _).mem_iff.mp h1
    exact dedupRoutes_subset h2

/-! Lemmas about the materialization loop `buildSteps`. -/

theorem buildSteps_length_of_present (g : Graph) (st : StationsMap) :
    ∀ (path : List String) (prev : Option String) (prevLine : String),
      (∀ x ∈ path, (List.lookup x st).isSome = true) →
      (buildSteps g st prev prevLine path).length = path.length := by
  intro path
  induction path with
  | nil => simp [buildSteps]
  | cons sid rest ih =>
    intro prev prevLine hall
    obtain ⟨s, hs⟩ := Option.isSome_iff_exists.mp (hall sid (by simp))
    simp only [buildSteps, hs, List.length_cons]
    rw [ih _ _ (fun x hx => hall x (by simp [hx]))]

theorem buildSteps_stationIds_sublist (g : Graph) (st : StationsMap) :
    ∀ (path : List String) (prev : Option String) (prevLine : String),
      ((buildSteps g st prev prevLine path).map RouteStep.stationId).Sublist path := by
  intro path
  induction path with
  | nil => simp [buildSteps]
  | cons sid rest ih =>
    intro prev prevLine
    cases hs : List.lookup sid st with
    | none =>
      simp only [buildSteps, hs]
      exact (ih _ _).cons sid
    | some s =>
      simp only [buildSteps, hs, List.map_cons]
      exact (ih _ _).cons₂ sid

theorem buildSteps_transferTo (g : Graph) (st : StationsMap) :
    ∀ (path : List String) (prev : Option String) (prevLine : String) (s : RouteStep),
      s ∈ buildSteps g st prev prevLine path →
      s.transferTo = if s.isTransfer then some s.line else none := by
  intro path
  induction path with
  | nil => simp [buildSteps]
  | cons sid rest ih =>
    intro prev prevLine s hmem
    cases hs : List.lookup sid st with
    | none =>
      simp only [buildSteps, hs] at hmem
      exact ih _ _ _ hmem
    | some stn =>
      simp only [buildSteps, hs, List.mem_cons] at hmem
      rcases hmem with rfl | hmem
      · rfl
      · exact ih _ _ _ hmem

theorem buildSteps_head_no_transfer (g : Graph) (st : StationsMap) :
    ∀ (path : List String) (prev : Option String) (s : RouteStep),
      (buildSteps g st prev "" path).head? = some s →
      s.isTransfer = false ∧ s.transferTo = none := by
  intro path
  induction path with
  | nil => simp [buildSteps]
  | cons sid rest ih =>
    intro prev s hhead
    cases hs : List.lookup sid st with
    | none =>
      simp only [buildSteps, hs] at hhead
      exact ih _ _ hhead
    | some stn =>
      simp only [buildSteps, hs, List.head?_cons, Option.some.injEq] at hhead
      subst hhead
      simp

/-! Soundness of the DFS: every route it emits is the materialization of a
simple, in-bounds edge path of the graph from the current station to the
target. -/

theorem findAllPaths_mem_sound (g : Graph) (st : StationsMap) :
    ∀ (fuel : Nat) (target current : String) (visited path lines : List String)
      (currentLine : String) (transfers : Nat) (r : RouteResult),
      r ∈ findAllPaths g st fuel target current visited path lines currentLine transfers →
      path.Nodup → (∀ x ∈ path, x ∈ visited) → path.length ≤ 31 → transfers ≤ 5 →
      ∃ es : List GraphEdge,
        r = mkRouteResult g st (path ++ es.map GraphEdge.«to») ∧
        (path ++ es.map GraphEdge.«to»).Nodup ∧
        (∀ e ∈ es, (List.lookup e.«to» st).isSome = true) ∧
        IsEdgePath g current es target ∧
        (path ++ es.map GraphEdge.«to»).length ≤ 31 ∧
        transfers + countTransfers currentLine (es.map GraphEdge.line) ≤ 5 := by
  intro fuel
  induction fuel with
  | zero =>
    intro target current visited path lines currentLine transfers r hr
    simp [findAllPaths] at hr
  | succ n ih =>
    intro target current visited path lines currentLine transfers r hr hnd hsub hlen htr
    simp only [findAllPaths] at hr
    split at hr
    · next heq =>
      simp only [List.mem_singleton] at hr
      refine ⟨[], by simpa using hr, by simpa using hnd, by simp, ?_, by simpa using hlen,
        by simpa [countTransfers] using htr⟩
      simpa [IsEdgePath] using heq
    · next hne =>
      split at hr
      · simp at hr
      · next hbound =>
        push_neg at hbound
        obtain ⟨hlen30, htr4⟩ := hbound
        simp only [List.mem_flatMap] at hr
        obtain ⟨e, he, hre⟩ := hr
        have heedge : e ∈ lookupEdges g current := by
          rcases List.mem_append.mp he with h | h
          · exact (List.mem_filter.mp h).1
          · exact (List.mem_filter.mp h).1
        split at hre
        · next hcond =>
          obtain ⟨hnotvis, hsome⟩ := hcond
          have hx := ih target e.«to» (e.«to» :: visited) (path ++ [e.«to»]) _ e.line _ r
            hre ?_ ?_ ?_ ?_
          · obtain ⟨es', hr_eq, hnd', hpres', hpath', hlen', htr'⟩ := hx
            refine ⟨e :: es', ?_, ?_, ?_, ⟨heedge, hpath'⟩, ?_, ?_⟩
            · simpa [List.append_assoc] using hr_eq
            · simpa [List.append_assoc] using hnd'
            · intro e' he'
              rcases List.mem_cons.mp he' with rfl | he'
              · exact hsome
              · exact hpres' e' he'
            · simpa [List.append_assoc] using hlen'
            · simp only [List.map_cons, countTransfers]
              by_cases hclc : currentLine ≠ "" ∧ e.line ≠ currentLine
              · rw [if_pos hclc] at htr'; rw [if_pos hclc]; omega
              · rw [if_neg hclc] at htr'; rw [if_neg hclc]; omega
          · refine List.Nodup.append hnd (by simp) ?_
            intro x hx1 hx2
            simp only [List.mem_singleton] at hx2
            exact hnotvis (hx2 ▸ hsub x hx1)
          · intro x hx
            rcases List.mem_append.mp hx with h | h
            · exact List.mem_cons_of_mem _ (hsub x h)
            · simp only [List.mem_singleton] at h
              simp [h]
          · simp only [List.length_append, List.length_singleton]
            omega
          · split <;> omega
        · simp at hre

/-! Fuel stability: the DFS result does not depend on the fuel once the fuel
exceeds the number of not-yet-visited station entries — the reason the
JavaScript recursion terminates. -/

theorem unseenCount_le_length (st : StationsMap) (visited : List String) :
    unseenCount st visited ≤ st.length := by
  induction st with
  | nil => simp [unseenCount]
  | cons kv rest ih =>
    simp only [unseenCount, List.length_cons]
    split <;> omega

theorem unseenCount_cons_le (st : StationsMap) (visited : List String) (x : String) :
    unseenCount st (x :: visited) ≤ unseenCount st visited := by
  induction st with
  | nil => simp [unseenCount]
  | cons kv rest ih =>
    simp only [unseenCount]
    by_cases h2 : kv.1 ∈ visited
    · rw [if_pos (List.mem_cons_of_mem x h2), if_pos h2]
      omega
    · rw [if_neg h2]
      split <;> omega

theorem unseenCount_lt (st : StationsMap) (visited : List String) (x : String)
    (hx : x ∉ visited) :
    (List.lookup x st).isSome = true →
      unseenCount st (x :: visited) < unseenCount st visited := by
  induction st with
  | nil => intro h; simp at h
  | cons kv rest ih =>
    obtain ⟨k, v⟩ := kv
    intro hsome
    by_cases hk : k = x
    · subst hk
      have hle := unseenCount_cons_le rest visited k
      have h0 : (if k ∈ k :: visited then 0 else 1) = 0 := by simp
      have h1 : (if k ∈ visited then 0 else 1) = 1 := by simp [hx]
      simp only [unseenCount, h0, h1]
      omega
    · have hmem : (k ∈ x :: visited) = (k ∈ visited) := by simp [hk]
      have hxk : (x == k) = false := by simp [Ne.symm hk]
      simp only [List.lookup, hxk] at hsome
      have := ih hsome
      simp only [unseenCount, hmem]
      omega

theorem findAllPaths_fuel_congr (g : Graph) (st : StationsMap) :
    ∀ (f₁ f₂ : Nat) (target current : String) (visited path lines : List String)
      (currentLine : String) (transfers : Nat),
      unseenCount st visited < f₁ → unseenCount st visited < f₂ →
      findAllPaths g st f₁ target current visited path lines currentLine transfers =
        findAllPaths g st f₂ target current visited path lines currentLine transfers := by
  intro f₁
  induction f₁ with
  | zero =>
    intro f₂ _ _ _ _ _ _ _ h1 _
    omega
  | succ n ih =>
    intro f₂ target current visited path lines currentLine transfers h1 h2
    obtain ⟨m, rfl⟩ : ∃ m, f₂ = m + 1 := ⟨f₂ - 1, by omega⟩
    simp only [findAllPaths]
    split
    · rfl
    · split
      · rfl
      · have hcongr : ∀ (l : List GraphEdge),
            (l.flatMap fun e =>
              if e.«to» ∉ visited ∧ (List.lookup e.«to» st).isSome = true then
                findAllPaths g st n target e.«to» (e.«to» :: visited) (path ++ [e.«to»])
                  (if e.line = currentLine then lines else lines ++ [e.line]) e.line
                  (if currentLine ≠ "" ∧ e.line ≠ currentLine then transfers + 1
                    else transfers)
              else []) =
            (l.flatMap fun e =>
              if e.«to» ∉ visited ∧ (List.lookup e.«to» st).isSome = true then
                findAllPaths g st m target e.«to» (e.«to» :: visited) (path ++ [e.«to»])
                  (if e.line = currentLine then lines else lines ++ [e.line]) e.line
                  (if currentLine ≠ "" ∧ e.line ≠ currentLine then transfers + 1
                    else transfers)
              else []) := by
          intro l
          induction l with
          | nil => rfl
          | cons e es ihl =>
            simp only [List.flatMap_cons]
            rw [ihl]
            congr 1
            split
            · next hcond =>
              have hlt := unseenCount_lt st visited e.«to» hcond.1 hcond.2
              exact ih m target e.«to» (e.«to» :: visited) (path ++ [e.«to»]) _ e.line _
                (by omega) (by omega)
            · rfl
        exact hcongr _

/-- Every member of `findRoutes g st o d m` is the materialization of a
simple, present, in-bounds edge path from `o` to `d`. -/
theorem findRoutes_path_decomp {g : Graph} {st : StationsMap} {o d : String} {m : Int}
    {r : RouteResult} (h : r ∈ findRoutes g st o d m) :
    ∃ es : List GraphEdge,
      r = mkRouteResult g st (o :: es.map GraphEdge.«to») ∧
      (o :: es.map GraphEdge.«to»).Nodup ∧
      (∀ e ∈ es, (List.lookup e.«to» st).isSome = true) ∧
      IsEdgePath g o es d ∧
      (o :: es.map GraphEdge.«to»).length ≤ 31 ∧
      countTransfers (initialLineOf st o) (es.map GraphEdge.line) ≤ 5 := by
  obtain ⟨-, hmem⟩ := mem_findRoutes h
  have hx := findAllPaths_mem_sound g st (st.length + 1) d o [o] [o] [initialLineOf st o]
    (initialLineOf st o) 0 r hmem (by simp) (by simp) (by simp) (by simp)
  obtain ⟨es, h1, h2, h3, h4, h5, h6⟩ := hx
  exact ⟨es, by simpa using h1, by simpa using h2, h3, h4, by simpa using h5,
    by simpa using h6⟩

/-- On a path all of whose stations are present in the map, consecutive
materialized steps are related by `stepLineRel`: each later step's line is
read off the first matching edge from the previous step's station, with the
station-membership fallback. -/
theorem buildSteps_chain (g : Graph) (st : StationsMap) :
    ∀ (path : List String) (prev : Option String) (prevLine : String),
      (∀ x ∈ path, (List.lookup x st).isSome = true) →
      List.Chain' (stepLineRel g) (buildSteps g st prev prevLine path) := by
  intro path
  induction path with
  | nil => simp [buildSteps]
  | cons sid rest ih =>
    intro prev prevLine hall
    obtain ⟨s, hs⟩ := Option.isSome_iff_exists.mp (hall sid (by simp))
    simp only [buildSteps, hs]
    rw [List.chain'_cons']
    constructor
    · intro y hy
      cases rest with
      | nil => simp [buildSteps] at hy
      | cons sid' rest' =>
        obtain ⟨s', hs'⟩ := Option.isSome_iff_exists.mp (hall sid' (by simp))
        simp only [buildSteps, hs', List.head?_cons, Option.mem_def,
          Option.some.injEq] at hy
        subst hy
        rfl
    · exact ih (some sid) _ (fun x hx => hall x (by simp [hx]))

theorem append_ne_left (p q : String) (hp : p ≠ "") : p ++ q ≠ "" := by
  intro hc
  have hlen := congrArg String.length hc
  rw [String.length_append] at hlen
  have h0 : ("" : String).length = 0 := rfl
  rw [h0] at hlen
  apply hp
  have hp0 : p.length = 0 := by omega
  cases p with
  | mk data =>
    simp only [String.length] at hp0
    apply String.ext
    simpa using hp0

/-- C3: the list returned by findRoutes is sorted — for any two consecutive
results `a, b`, either `a.totalTransfers < b.totalTransfers`, or they are
equal and `a.totalStations ≤ b.totalStations`. -/
theorem findRoutes_sorted (g : Graph) (st : StationsMap) (o d : String) (m : Int) :
    List.Chain' (fun a b => a.totalTransfers < b.totalTransfers ∨
        (a.totalTransfers = b.totalTransfers ∧ a.totalStations ≤ b.totalStations))
      (findRoutes g st o d m) := by
  unfold findRoutes findRoutesAux
  split
  · simp
  · apply List.Pairwise.chain'
    apply List.Pairwise.imp (fun hab => hab)
    exact List.Pairwise.sublist (jsSliceTo_sublist _ _)
      (List.sorted_insertionSort routeOrder _)

theorem getLineTerminalGo_eq_spec (s v : String) :
    ∀ l : List Path,
      getLineTerminalGo s v l =
        (l.findSome? (fun p =>
          match p.stations.findIdx? (fun x => x = s),
            p.stations.findIdx? (fun x => x = v) with
          | some fromIndex, some viaIndex =>
            some (if fromIndex < viaIndex then p.«to» else p.«from»)
          | _, _ => none)).getD "" := by
  intro l
  induction l with
  | nil => rfl
  | cons p rest ih =>
    cases h1 : p.stations.findIdx? (fun x => x = s) <;>
      cases h2 : p.stations.findIdx? (fun x => x = v) <;>
        simp only [getLineTerminalGo, List.findSome?_cons, h1, h2] <;>
          first
            | exact ih
            | rfl

/-- C7: `getLineTerminal` iterates the line's declared paths, locates both
station indices in each, and on the first path containing both returns its
`to` terminal for forward travel and its `from` terminal for backward
travel, defaulting to the empty string when no path contains both stations:
it coincides with the spec-side restatement `getLineTerminalSpec`. -/
theorem getLineTerminal_matches_spec (paths : PathsMap) (line fromId viaId : String) :
    getLineTerminal paths line fromId viaId =
      getLineTerminalSpec paths line fromId viaId := by
  unfold getLineTerminal getLineTerminalSpec
  cases List.lookup line paths with
  | none => rfl
  | some lp => exact getLineTerminalGo_eq_spec fromId viaId lp.paths

theorem jsSliceTo_length_le {α : Type} (l : List α) (m : Int) (hm : 0 ≤ m) :
    ((jsSliceTo l m).length : Int) ≤ m := by
  unfold jsSliceTo
  rw [if_neg (by omega)]
  have h1 : (l.take m.toNat).length ≤ m.toNat := by
    rw [List.length_take]; omega
  omega

/-- C8 (amended): for every nonnegative `maxRoutes` argument, the returned
list has at most `maxRoutes` elements. (With JavaScript slice semantics a
negative `maxRoutes` removes elements from the end instead, so the original
unrestricted claim fails; see the counterexample.) -/
theorem findRoutes_maxRoutes_bound (g : Graph) (st : StationsMap) (o d : String)
    (m : Int) (hm : 0 ≤ m) :
    ((findRoutes g st o d m).length : Int) ≤ m := by
  unfold findRoutes findRoutesAux
  split
  · simpa using hm
  · exact jsSliceTo_length_le _ m hm

/-- Witness for `findRoutes_maxRoutes_bound` at `maxRoutes = 5`. -/
theorem findRoutes_maxRoutes_bound_witness :
    (0 : Int) ≤ 5 ∧
      ((findRoutes graphTwo stationsTwo "a" "b" 5).length : Int) ≤ 5 :=
  ⟨by decide, findRoutes_maxRoutes_bound graphTwo stationsTwo "a" "b" 5 (by decide)⟩

/-- C8 counterexample: with `maxRoutes = -1` (JavaScript `slice(0, -1)` keeps
all but the last element) a graph with two routes returns one route, whose
count is not `≤ -1`. -/
theorem findRoutes_maxRoutes_counterexample :
    (findRoutes graphTwo stationsTwo "a" "b" (-1)).length = 1 ∧
      ¬ (((findRoutes graphTwo stationsTwo "a" "b" (-1)).length : Int) ≤ -1) := by
  constructor
  · decide
  · decide

/-- C10: the DFS is total — its result is independent of the fuel bound as
soon as the fuel exceeds the number of stations-map entries, because every
recursive call strictly enlarges the visited set inside the finite station
map (and branches are additionally cut off beyond 30 path stations or 4
transfers). `findRoutes` fixes the fuel at `stations.length + 1`, which this
theorem shows is already in the stable regime. -/
theorem findRoutesAux_fuel_irrelevant (g : Graph) (st : StationsMap) (o d : String)
    (m : Int) (fuel : Nat) (hf : st.length < fuel) :
    findRoutesAux fuel g st o d m = findRoutes g st o d m := by
  unfold findRoutes findRoutesAux
  by_cases hod : o = d
  · simp [hod]
  · simp only [if_neg hod]
    rw [findAllPaths_fuel_congr g st fuel (st.length + 1) d o [o] [o]
      [initialLineOf st o] (initialLineOf st o) 0
      (by have := unseenCount_le_length st [o]; omega)
      (by have := unseenCount_le_length st [o]; omega)]

/-- Witness for `findRoutesAux_fuel_irrelevant` with fuel 100 on a concrete
two-station network. -/
theorem findRoutesAux_fuel_irrelevant_witness :
    List.length stationsSwitch < 100 ∧
      findRoutesAux 100 graphSwitch stationsSwitch "s1" "s2" 5 =
        findRoutes graphSwitch stationsSwitch "s1" "s2" 5 :=
  ⟨by decide,
    findRoutesAux_fuel_irrelevant graphSwitch stationsSwitch "s1" "s2" 5 100 (by decide)⟩

/-- C4: every returned route is a simple path — the station ids of its steps
are pairwise distinct. -/
theorem findRoutes_simple_paths {g : Graph} {st : StationsMap} {o d : String}
    {m : Int} {r : RouteResult} (hr : r ∈ findRoutes g st o d m) :
    (r.steps.map RouteStep.stationId).Nodup := by
  obtain ⟨es, rfl, hnd, -, -, -, -⟩ := findRoutes_path_decomp hr
  exact List.Nodup.sublist (buildSteps_stationIds_sublist g st _ none "") hnd

/-- Witness for `findRoutes_simple_paths` on a concrete network. -/
theorem findRoutes_simple_paths_witness :
    ((findRoutes graphTwo stationsTwo "a" "b" 5).headD emptyRoute ∈
        findRoutes graphTwo stationsTwo "a" "b" 5) ∧
      (((findRoutes graphTwo stationsTwo "a" "b" 5).headD emptyRoute).steps.map
          RouteStep.stationId).Nodup :=
  ⟨by decide,
    @findRoutes_simple_paths graphTwo stationsTwo "a" "b" 5
      ((findRoutes graphTwo stationsTwo "a" "b" 5).headD emptyRoute) (by decide)⟩

/-- C9: in every returned route, `transferTo` is populated exactly when
`isTransfer` is set, always with the step's own line, and the first step of
a route is never a transfer. -/
theorem findRoutes_transfer_flags {g : Graph} {st : StationsMap} {o d : String}
    {m : Int} {r : RouteResult} (hr : r ∈ findRoutes g st o d m) :
    (∀ s ∈ r.steps, s.transferTo = if s.isTransfer then some s.line else none) ∧
      ∀ s, r.steps.head? = some s → s.isTransfer = false ∧ s.transferTo = none := by
  obtain ⟨es, rfl, -, -, -, -, -⟩ := findRoutes_path_decomp hr
  constructor
  · intro s hs
    exact buildSteps_transferTo g st _ none "" s hs
  · intro s hs
    exact buildSteps_head_no_transfer g st _ none s hs

/-- Witness for `findRoutes_transfer_flags` on a concrete network. -/
theorem findRoutes_transfer_flags_witness :
    ((findRoutes graphSwitch stationsSwitch "s1" "s2" 5).headD emptyRoute ∈
        findRoutes graphSwitch stationsSwitch "s1" "s2" 5) ∧
      ((∀ s ∈ ((findRoutes graphSwitch stationsSwitch "s1" "s2" 5).headD
            emptyRoute).steps,
          s.transferTo = if s.isTransfer then some s.line else none) ∧
        ∀ s, ((findRoutes graphSwitch stationsSwitch "s1" "s2" 5).headD
            emptyRoute).steps.head? = some s →
          s.isTransfer = false ∧ s.transferTo = none) :=
  ⟨by decide,
    @findRoutes_transfer_flags graphSwitch stationsSwitch "s1" "s2" 5
      ((findRoutes graphSwitch stationsSwitch "s1" "s2" 5).headD emptyRoute)
      (by decide)⟩

/-- C1 counterexample: when the origin station id is missing from the
stations map, the materialization skips its step, so `totalStations` (the raw
path length) exceeds `steps.length` — the claimed invariant
`totalStations = steps.length` fails on this returned route. -/
theorem findRoutes_totalStations_counterexample :
    (findRoutes graphSwitch stationsNoOrigin "s1" "s2" 5).length = 1 ∧
      ((findRoutes graphSwitch stationsNoOrigin "s1" "s2" 5).headD
          emptyRoute).totalStations = 2 ∧
      ((findRoutes graphSwitch stationsNoOrigin "s1" "s2" 5).headD
          emptyRoute).steps.length = 1 := by
  decide

/-- C1 (amended): for every returned route, `totalTransfers` equals
`lines.length - 1` and `lines` is the first-occurrence deduplication of the
nonempty line ids appearing in the steps — unconditionally; and
`totalStations = steps.length` holds provided the origin station id is
present in the stations map (every other station of a found path is present
by construction). -/
theorem findRoutes_result_invariants {g : Graph} {st : StationsMap} {o d : String}
    {m : Int} {r : RouteResult} (hr : r ∈ findRoutes g st o d m) :
    r.totalTransfers = (r.lines.length : Int) - 1 ∧
      r.lines = jsDedup ((r.steps.map RouteStep.line).filter (fun l => l ≠ "")) ∧
      ((List.lookup o st).isSome = true → r.totalStations = r.steps.length) := by
  obtain ⟨es, rfl, -, hpres, -, -, -⟩ := findRoutes_path_decomp hr
  refine ⟨rfl, rfl, ?_⟩
  intro ho
  have hall : ∀ x ∈ o :: es.map GraphEdge.«to», (List.lookup x st).isSome = true := by
    intro x hx
    rcases List.mem_cons.mp hx with rfl | hx
    · exact ho
    · obtain ⟨e, he, rfl⟩ := List.mem_map.mp hx
      exact hpres e he
  exact (buildSteps_length_of_present g st _ none "" hall).symm

/-- Witness for `findRoutes_result_invariants` on a network whose origin is
present in the stations map. -/
theorem findRoutes_result_invariants_witness :
    ((findRoutes graphSwitch stationsSwitch "s1" "s2" 5).headD emptyRoute ∈
        findRoutes graphSwitch stationsSwitch "s1" "s2" 5) ∧
      (((findRoutes graphSwitch stationsSwitch "s1" "s2" 5).headD
            emptyRoute).totalTransfers =
          ((((findRoutes graphSwitch stationsSwitch "s1" "s2" 5).headD
              emptyRoute).lines.length : Int)) - 1 ∧
        ((findRoutes graphSwitch stationsSwitch "s1" "s2" 5).headD emptyRoute).lines =
          jsDedup ((((findRoutes graphSwitch stationsSwitch "s1" "s2" 5).headD
              emptyRoute).steps.map RouteStep.line).filter (fun l => l ≠ "")) ∧
        ((List.lookup "s1" stationsSwitch).isSome = true →
          ((findRoutes graphSwitch stationsSwitch "s1" "s2" 5).headD
              emptyRoute).totalStations =
            ((findRoutes graphSwitch stationsSwitch "s1" "s2" 5).headD
                emptyRoute).steps.length)) :=
  ⟨by decide,
    @findRoutes_result_invariants graphSwitch stationsSwitch "s1" "s2" 5
      ((findRoutes graphSwitch stationsSwitch "s1" "s2" 5).headD emptyRoute)
      (by decide)⟩

/-- C2 counterexample: the only outgoing edge of the origin `s1` is on line
`LB` and the route departs along it, yet the first step's line is `LA` — the
origin station's first line membership — because the materialization never
consults the outgoing edge for the first station (`i > 0` is false at
index 0). -/
theorem findRoutes_first_step_line_counterexample :
    (lookupEdges graphSwitch "s1").map GraphEdge.line = ["LB"] ∧
      (findRoutes graphSwitch stationsSwitch "s1" "s2" 5).length = 1 ∧
      (((findRoutes graphSwitch stationsSwitch "s1" "s2" 5).headD
          emptyRoute).steps.map RouteStep.line).head? = some "LA" ∧
      ("LA" : String) ≠ "LB" := by
  decide

/-- C2 (amended): the first step's line is never taken from the edge leading
out of the origin. Whenever the origin station id is present in the stations
map, the first step is the origin itself and its line is the origin
station's first known line membership (empty when it has no lines); every
later step's line is read off the first graph edge from the previous step's
station into it, falling back to the station's first line membership and
then to the empty string. (When the origin is missing from the map its step
is skipped entirely — see the C1 counterexample — which is why the
characterization is stated under origin presence.) -/
theorem findRoutes_step_line_sources {g : Graph} {st : StationsMap} {o d : String}
    {m : Int} {r : RouteResult} {s : Station}
    (hr : r ∈ findRoutes g st o d m) (ho : List.lookup o st = some s) :
    r.steps.head? = some ⟨o, s, s.lines.headD "", false, none⟩ ∧
      List.Chain' (stepLineRel g) r.steps := by
  obtain ⟨es, rfl, -, hpres, -, -, -⟩ := findRoutes_path_decomp hr
  have hall : ∀ x ∈ o :: es.map GraphEdge.«to», (List.lookup x st).isSome = true := by
    intro x hx
    rcases List.mem_cons.mp hx with rfl | hx
    · simp [ho]
    · obtain ⟨e, he, rfl⟩ := List.mem_map.mp hx
      exact hpres e he
  constructor
  · show (buildSteps g st none "" (o :: es.map GraphEdge.«to»)).head? = _
    simp only [buildSteps, ho, jsOr_left_empty, jsOr_right_empty, List.head?_cons,
      Option.some.injEq]
    simp
  · exact buildSteps_chain g st _ none "" hall

/-- Witness for `findRoutes_step_line_sources` on the two-line origin
network. -/
theorem findRoutes_step_line_sources_witness :
    ((findRoutes graphSwitch stationsSwitch "s1" "s2" 5).headD emptyRoute ∈
        findRoutes graphSwitch stationsSwitch "s1" "s2" 5) ∧
      List.lookup "s1" stationsSwitch = some (sampleStation "s1" ["LA", "LB"]) ∧
      (((findRoutes graphSwitch stationsSwitch "s1" "s2" 5).headD
            emptyRoute).steps.head? =
          some ⟨"s1", sampleStation "s1" ["LA", "LB"],
            (sampleStation "s1" ["LA", "LB"]).lines.headD "", false, none⟩ ∧
        List.Chain' (stepLineRel graphSwitch)
          ((findRoutes graphSwitch stationsSwitch "s1" "s2" 5).headD
            emptyRoute).steps) :=
  ⟨by decide, by decide,
    @findRoutes_step_line_sources graphSwitch stationsSwitch "s1" "s2" 5
      ((findRoutes graphSwitch stationsSwitch "s1" "s2" 5).headD emptyRoute)
      (sampleStation "s1" ["LA", "LB"]) (by decide) (by decide)⟩

/-! In `graphChain` every station has at most one outgoing edge, so the edge
sequence connecting `c0` to `c5` is forced. -/

theorem graphChain_forced_c5 : ∀ es, IsEdgePath graphChain "c5" es "c5" → es = [] := by
  intro es h
  cases es with
  | nil => rfl
  | cons e es' =>
    obtain ⟨hmem, -⟩ := h
    have h0 : lookupEdges graphChain "c5" = [] := rfl
    rw [h0] at hmem
    exact absurd hmem (List.not_mem_nil e)

theorem graphChain_forced_c4 :
    ∀ es, IsEdgePath graphChain "c4" es "c5" → es = [⟨"c4", "c5", "L5", 1⟩] := by
  intro es h
  cases es with
  | nil => simp only [IsEdgePath] at h; exact absurd h (by decide)
  | cons e es' =>
    obtain ⟨hmem, hrest⟩ := h
    have h0 : lookupEdges graphChain "c4" = [⟨"c4", "c5", "L5", 1⟩] := rfl
    rw [h0, List.mem_singleton] at hmem
    subst hmem
    rw [graphChain_forced_c5 es' hrest]

theorem graphChain_forced_c3 :
    ∀ es, IsEdgePath graphChain "c3" es "c5" →
      es = [⟨"c3", "c4", "L4", 1⟩, ⟨"c4", "c5", "L5", 1⟩] := by
  intro es h
  cases es with
  | nil => simp only [IsEdgePath] at h; exact absurd h (by decide)
  | cons e es' =>
    obtain ⟨hmem, hrest⟩ := h
    have h0 : lookupEdges graphChain "c3" = [⟨"c3", "c4", "L4", 1⟩] := rfl
    rw [h0, List.mem_singleton] at hmem
    subst hmem
    rw [graphChain_forced_c4 es' hrest]

theorem graphChain_forced_c2 :
    ∀ es, IsEdgePath graphChain "c2" es "c5" →
      es = [⟨"c2", "c3", "L3", 1⟩, ⟨"c3", "c4", "L4", 1⟩, ⟨"c4", "c5", "L5", 1⟩] := by
  intro es h
  cases es with
  | nil => simp only [IsEdgePath] at h; exact absurd h (by decide)
  | cons e es' =>
    obtain ⟨hmem, hrest⟩ := h
    have h0 : lookupEdges graphChain "c2" = [⟨"c2", "c3", "L3", 1⟩] := rfl
    rw [h0, List.mem_singleton] at hmem
    subst hmem
    rw [graphChain_forced_c3 es' hrest]

theorem graphChain_forced_c1 :
    ∀ es, IsEdgePath graphChain "c1" es "c5" →
      es = [⟨"c1", "c2", "L2", 1⟩, ⟨"c2", "c3", "L3", 1⟩, ⟨"c3", "c4", "L4", 1⟩,
        ⟨"c4", "c5", "L5", 1⟩] := by
  intro es h
  cases es with
  | nil => simp only [IsEdgePath] at h; exact absurd h (by decide)
  | cons e es' =>
    obtain ⟨hmem, hrest⟩ := h
    have h0 : lookupEdges graphChain "c1" = [⟨"c1", "c2", "L2", 1⟩] := rfl
    rw [h0, List.mem_singleton] at hmem
    subst hmem
    rw [graphChain_forced_c2 es' hrest]

theorem graphChain_forced_c0 :
    ∀ es, IsEdgePath graphChain "c0" es "c5" →
      es = [⟨"c0", "c1", "L1", 1⟩, ⟨"c1", "c2", "L2", 1⟩, ⟨"c2", "c3", "L3", 1⟩,
        ⟨"c3", "c4", "L4", 1⟩, ⟨"c4", "c5", "L5", 1⟩] := by
  intro es h
  cases es with
  | nil => simp only [IsEdgePath] at h; exact absurd h (by decide)
  | cons e es' =>
    obtain ⟨hmem, hrest⟩ := h
    have h0 : lookupEdges graphChain "c0" = [⟨"c0", "c1", "L1", 1⟩] := rfl
    rw [h0, List.mem_singleton] at hmem
    subst hmem
    rw [graphChain_forced_c1 es' hrest]

/-- C5 counterexample: on `graphChain` no edge sequence connects `c0` to `c5`
within 4 counted transfers (the unique connecting sequence accumulates 5),
yet `findRoutes` is nonempty — the pruning check `transfers > 4` runs before
expansion, so routes whose counter reaches 5 at the target are still
returned. The same off-by-one lets 31-station paths through the
`path.length > 30` check. -/
theorem findRoutes_bounds_counterexample :
    (∀ es, IsEdgePath graphChain "c0" es "c5" →
        ¬ (countTransfers (initialLineOf stationsChain "c0")
            (es.map GraphEdge.line) ≤ 4)) ∧
      findRoutes graphChain stationsChain "c0" "c5" 5 ≠ [] := by
  constructor
  · intro es h
    rw [graphChain_forced_c0 es h]
    decide
  · decide

/-- C5 (amended): `findRoutes` returns the empty list whenever the origin
equals the destination, and whenever no edge sequence connects them within
the bounds the search actually enforces — at most 30 edges (31 stations) and
at most 5 accumulated transfers (`ConnectsWithin`). The function is total,
so it never throws. -/
theorem findRoutes_empty_cases (g : Graph) (st : StationsMap) (o d : String) (m : Int)
    (h : o = d ∨ ¬ ConnectsWithin g st o d) :
    findRoutes g st o d m = [] := by
  rcases h with h | h
  · simp [findRoutes, findRoutesAux, h]
  · by_contra hne
    obtain ⟨r, hr⟩ := List.exists_mem_of_ne_nil _ hne
    obtain ⟨es, -, -, hpres, hpath, hlen, htr⟩ := findRoutes_path_decomp hr
    refine h ⟨es, hpath, hpres, ?_, htr⟩
    simp only [List.length_cons, List.length_map] at hlen
    omega

/-- Witness for `findRoutes_empty_cases` on an edgeless two-station
network. -/
theorem findRoutes_empty_cases_witness :
    (("x" = "y") ∨ ¬ ConnectsWithin ([] : Graph) stationsIsland "x" "y") ∧
      findRoutes ([] : Graph) stationsIsland "x" "y" 5 = [] := by
  have hnc : ¬ ConnectsWithin ([] : Graph) stationsIsland "x" "y" := by
    rintro ⟨es, hpath, -, -, -⟩
    cases es with
    | nil =>
      simp only [IsEdgePath] at hpath
      exact absurd hpath (by decide)
    | cons e es' =>
      obtain ⟨hmem, -⟩ := hpath
      have h0 : lookupEdges ([] : Graph) "x" = [] := rfl
      rw [h0] at hmem
      exact absurd hmem (List.not_mem_nil e)
  exact ⟨Or.inr hnc, findRoutes_empty_cases ([] : Graph) stationsIsland "x" "y" 5
    (Or.inr hnc)⟩

theorem getLineTerminalGo_miss (s v : String) :
    ∀ l : List Path, (∀ p ∈ l, s ∉ p.stations ∨ v ∉ p.stations) →
      getLineTerminalGo s v l = "" := by
  intro l
  induction l with
  | nil => intro _; rfl
  | cons p rest ih =>
    intro h
    have hrest := ih (fun q hq => h q (List.mem_cons_of_mem p hq))
    rcases h p (List.mem_cons_self p rest) with hs | hv
    · have h1 : p.stations.findIdx? (fun x => x = s) = none := by
        rw [List.findIdx?_eq_none_iff]
        intro x hx
        simp only [decide_eq_false_iff_not]
        rintro rfl
        exact hs hx
      cases h2 : p.stations.findIdx? (fun x => x = v) <;>
        simp only [getLineTerminalGo, h1, h2] <;> exact hrest
    · have h2 : p.stations.findIdx? (fun x => x = v) = none := by
        rw [List.findIdx?_eq_none_iff]
        intro x hx
        simp only [decide_eq_false_iff_not]
        rintro rfl
        exact hv hx
      cases h1 : p.stations.findIdx? (fun x => x = s) <;>
        simp only [getLineTerminalGo, h1, h2] <;> exact hrest

/-- C6 (amended): when no declared path of a line contains both stations,
`getLineTerminal` returns the empty string; the calling guidance functions
are total (never throw) but do **not** propagate the miss as an empty
string — they interpolate the empty terminal name into their full
instruction. `getFirstStepGuide` is empty exactly when the route has no
steps, and `getTransferGuide` is empty exactly when the index is at or past
the last step or the indexed step carries no (nonempty) `transferTo`. -/
theorem guides_on_miss (paths : PathsMap) (line s v : String) (lines : LinesMap)
    (lang : Language) (disp : String → String) (route : RouteResult) (i : Nat)
    (hmiss : pathsMissBoth paths line s v) :
    getLineTerminal paths line s v = "" ∧
      (getFirstStepGuide paths route lines lang disp = "" ↔ route.steps = []) ∧
      (getTransferGuide paths route i lines lang disp = "" ↔
        (route.steps.length ≤ i + 1 ∨
          (route.steps[i]?.bind RouteStep.transferTo).getD "" = "")) := by
  refine ⟨?_, ?_, ?_⟩
  · unfold getLineTerminal
    cases hl : List.lookup line paths with
    | none => rfl
    | some lp => exact getLineTerminalGo_miss s v lp.paths (hmiss lp hl)
  · unfold getFirstStepGuide
    cases hsteps : route.steps with
    | nil => simp
    | cons fs rest =>
      simp only [List.head?_cons]
      constructor
      · intro hc
        exfalso
        cases lang with
        | en =>
          exact append_ne_left _ _ (append_ne_left _ _ (append_ne_left _ _
            (append_ne_left _ _ (append_ne_left _ _ (by decide))))) hc
        | fa =>
          exact append_ne_left _ _ (append_ne_left _ _ (append_ne_left _ _
            (append_ne_left _ _ (append_ne_left _ _ (append_ne_left _ _
              (by decide)))))) hc
      · intro hc
        exact absurd hc (List.cons_ne_nil fs rest)
  · unfold getTransferGuide
    by_cases hlen : route.steps.length ≤ i + 1
    · rw [if_pos hlen]
      simp [hlen]
    · rw [if_neg hlen]
      have hi1 : i + 1 < route.steps.length := by omega
      have hi : i < route.steps.length := by omega
      rw [List.getElem?_eq_getElem hi, List.getElem?_eq_getElem hi1]
      cases hT : (route.steps[i]).transferTo with
      | none =>
        simp [List.getElem?_eq_getElem hi, hT, hlen]
      | some t =>
        simp only [hT]
        by_cases ht : t = ""
        · rw [if_pos ht]
          simp [List.getElem?_eq_getElem hi, hT, ht, hlen]
        · rw [if_neg ht]
          constructor
          · intro hc
            exfalso
            cases lang with
            | en =>
              exact append_ne_left _ _ (append_ne_left _ _ (append_ne_left _ _
                (append_ne_left _ _ (append_ne_left _ _ (by decide))))) hc
            | fa =>
              exact append_ne_left _ _ (append_ne_left _ _ (append_ne_left _ _
                (append_ne_left _ _ (append_ne_left _ _ (append_ne_left _ _
                  (by decide)))))) hc
          · intro hc
            rcases hc with hc | hc
            · exact absurd hc hlen
            · rw [Option.some_bind, hT, Option.getD_some] at hc
              exact absurd hc ht

/-- Witness for `guides_on_miss`: empty paths dataset (every lookup misses),
applied to concrete routes. -/
theorem guides_on_miss_witness :
    pathsMissBoth ([] : PathsMap) "L1" "s1" "s2" ∧
      (getLineTerminal ([] : PathsMap) "L1" "s1" "s2" = "" ∧
        (getFirstStepGuide ([] : PathsMap) routeGuide ([] : LinesMap) Language.en
            (fun x => x) = "" ↔ routeGuide.steps = []) ∧
        (getTransferGuide ([] : PathsMap) routeGuide 0 ([] : LinesMap) Language.en
            (fun x => x) = "" ↔
          (routeGuide.steps.length ≤ 0 + 1 ∨
            (routeGuide.steps[0]?.bind RouteStep.transferTo).getD "" = ""))) :=
  ⟨fun _ h => Option.noConfusion h,
    guides_on_miss ([] : PathsMap) "L1" "s1" "s2" ([] : LinesMap) Language.en
      (fun x => x) routeGuide 0 (fun _ h => Option.noConfusion h)⟩

/-- C6 counterexample: with an empty paths dataset every terminal lookup
misses and returns `""`, yet `getFirstStepGuide` and `getTransferGuide` on
nonempty routes return their full (nonempty) instruction strings instead of
propagating the empty string. -/
theorem guides_propagate_counterexample :
    getLineTerminal ([] : PathsMap) "L1" "s1" "s2" = "" ∧
      getFirstStepGuide ([] : PathsMap) routeGuide ([] : LinesMap) Language.en
        (fun x => x) ≠ "" ∧
      getTransferGuide ([] : PathsMap) routeTransfer 0 ([] : LinesMap) Language.en
        (fun x => x) ≠ "" := by
  decide

end Metro
